import Mathlib

/-!
Verification of `QuiverQuantCongressUniverseSelectionAlgorithm.py`.

The Python script is a QCAlgorithm subclass with three methods:
`Initialize` (sets resolution, start/end dates, cash, and registers one
universe), `UniverseSelection` (logs each datum, then returns the list
comprehension of symbols with `Amount > 200000 and Transaction == Buy`),
and `OnSecuritiesChanged` (logs the change set).

We embed the host-visible algorithm state explicitly: the mutable
configuration fields touched by `Initialize`, the registered universes,
and the log sink.  Each Python method becomes a state-passing Lean
function.
-/

namespace QuiverQuantCongress

/-- Order direction enumeration (`OrderDirection` in the host API). -/
inductive OrderDirection where
  | Buy
  | Sell
  | Hold
  deriving DecidableEq, Repr

/-- String rendering of an order direction, as printed into the log line. -/
def OrderDirection.pyStr : OrderDirection → String
  | OrderDirection.Buy => "Buy"
  | OrderDirection.Sell => "Sell"
  | OrderDirection.Hold => "Hold"

/-- One record of the QuiverQuant congress-trading universe feed:
symbol, representative name, transaction amount, transaction direction. -/
structure UniverseDatum where
  Symbol : String
  Representative : String
  Amount : Int
  Transaction : OrderDirection
  deriving DecidableEq, Repr

/-- A calendar date as passed to `SetStartDate` / `SetEndDate`. -/
structure Date where
  year : Nat
  month : Nat
  day : Nat
  deriving DecidableEq, Repr

/-- Data resolution enumeration (`Resolution` in the host API). -/
inductive Resolution where
  | Tick
  | Second
  | Minute
  | Hour
  | Daily
  deriving DecidableEq, Repr

/-- A universe registration as performed by `AddUniverse`:
the data source type, the universe name, and its resolution. -/
structure RegisteredUniverse where
  dataType : String
  name : String
  resolution : Resolution
  deriving DecidableEq, Repr

/-- Host-owned record describing securities added/removed; the script only
reads its string representation, so we model exactly that. -/
structure SecurityChangeSet where
  ToString : String
  deriving DecidableEq, Repr

/-- The host-managed state visible to the script: the configuration fields
mutated by `Initialize`, the registered universes, and the log sink. -/
structure AlgorithmState where
  universeResolution : Resolution
  startDate : Date
  endDate : Date
  cash : Int
  universes : List RegisteredUniverse
  log : List String
  deriving DecidableEq, Repr

/-- `self.Log(line)`: appends one line to the host log sink. -/
def Log (st : AlgorithmState) (line : String) : AlgorithmState :=
  { st with log := st.log ++ [line] }

/-- The f-string logged per datum:
`f"{datum.Symbol},{datum.Representative},{datum.Amount},{datum.Transaction}"`. -/
def logLine (d : UniverseDatum) : String :=
  d.Symbol ++ "," ++ d.Representative ++ "," ++ toString d.Amount ++ ","
    ++ OrderDirection.pyStr d.Transaction

/-- `Initialize`: sets `UniverseSettings.Resolution = Resolution.Daily`,
`SetStartDate(2022, 2, 14)`, `SetEndDate(2022, 2, 18)`, `SetCash(100000)`,
then `AddUniverse(QuiverQuantCongressUniverse,
"QuiverQuantCongresssUniverse", Resolution.Daily, self.UniverseSelection)`. -/
def Initialize (st : AlgorithmState) : AlgorithmState :=
  let s1 := { st with universeResolution := Resolution.Daily }
  let s2 := { s1 with startDate := ⟨2022, 2, 14⟩ }
  let s3 := { s2 with endDate := ⟨2022, 2, 18⟩ }
  let s4 := { s3 with cash := 100000 }
  { s4 with
    universes := s4.universes
      ++ [⟨"QuiverQuantCongressUniverse", "QuiverQuantCongresssUniverse",
           Resolution.Daily⟩] }

/-- `UniverseSelection(self, data)`: the for-loop logs one line per datum,
then the list comprehension
`[d.Symbol for d in data if d.Amount > 200000 and d.Transaction == OrderDirection.Buy]`
is returned.  We return the updated state together with the selection. -/
def UniverseSelection (st : AlgorithmState) (data : List UniverseDatum) :
    AlgorithmState × List String :=
  ( data.foldl (fun s d => Log s (logLine d)) st,
    (data.filter
        (fun d => decide (d.Amount > 200000 ∧ d.Transaction = OrderDirection.Buy))).map
      (fun d => d.Symbol) )

/-- `OnSecuritiesChanged(self, changes)`: `self.Log(changes.ToString())`. -/
def OnSecuritiesChanged (st : AlgorithmState) (changes : SecurityChangeSet) :
    AlgorithmState :=
  Log st changes.ToString

/-- A concrete state used for concrete evaluations. -/
def initState : AlgorithmState :=
  ⟨Resolution.Minute, ⟨1998, 1, 1⟩, ⟨1998, 1, 2⟩, 0, [], []⟩

/-- Folding `Log` over a list of lines just appends them all to the sink. -/
theorem foldl_Log (lines : List String) (st : AlgorithmState) :
    lines.foldl Log st = { st with log := st.log ++ lines } := by
  induction lines generalizing st with
  | nil => simp [Log]
  | cons l t ih => simp [Log, ih]

/-- The state component of `UniverseSelection` appends exactly the per-datum
log lines; nothing else in the state changes. -/
theorem UniverseSelection_state (st : AlgorithmState) (data : List UniverseDatum) :
    ( UniverseSelection st data).1 = { st with log := st.log ++ data.map logLine } := by
  unfold UniverseSelection
  rw [← List.foldl_map logLine Log data st, foldl_Log]

/-- The projection of a datum that the selection can observe: everything
except the `Representative` field. -/
def observable (d : UniverseDatum) : String × Int × OrderDirection :=
  (d.Symbol, d.Amount, d.Transaction)

/-- The selection factors through `observable`: it can be computed from the
per-datum triples (symbol, amount, direction) alone. -/
theorem selection_eq_obs (st : AlgorithmState) (data : List UniverseDatum) :
    ( UniverseSelection st data).2 =
      (data.map observable).filterMap
        (fun o => if o.2.1 > 200000 ∧ o.2.2 = OrderDirection.Buy then some o.1 else none) := by
  unfold UniverseSelection
  dsimp only
  induction data with
  | nil => rfl
  | cons d t ih =>
    by_cases h : d.Amount > 200000 ∧ d.Transaction = OrderDirection.Buy
    · simp [observable, List.filter_cons, h] at ih ⊢
      exact ih
    · simp [observable, List.filter_cons, h] at ih ⊢
      exact ih

/-- Claim C1: the selection returned by `UniverseSelection` contains exactly
the symbols of the input data whose amount strictly exceeds 200000 and whose
transaction direction is `Buy`; any datum failing either condition
contributes no symbol. -/
theorem C1_selection_exact (st : AlgorithmState) (data : List UniverseDatum)
    (s : String) :
    s ∈ ( UniverseSelection st data).2 ↔
      ∃ d, d ∈ data ∧ d.Symbol = s ∧ d.Amount > 200000 ∧
        d.Transaction = OrderDirection.Buy := by
  unfold UniverseSelection
  simp only [List.mem_map, List.mem_filter, decide_eq_true_eq]
  constructor
  · rintro ⟨d, ⟨hd, hp⟩, rfl⟩
    exact ⟨d, hd, rfl, hp⟩
  · rintro ⟨d, hd, rfl, hp⟩
    exact ⟨d, ⟨hd, hp⟩, rfl⟩

/-- Claim C2 counterexample: two distinct qualifying data sharing the symbol
`"AAPL"` make `UniverseSelection` return `["AAPL", "AAPL"]`, which has a
duplicate — the returned selection is not duplicate-free, contrary to the
claim. -/
theorem C2_counterexample :
    ¬ (( UniverseSelection initState
      [⟨"AAPL", "Rep1", 250000, OrderDirection.Buy⟩,
       ⟨"AAPL", "Rep2", 300000, OrderDirection.Buy⟩]).2).Nodup := by
  decide

/-- Claim C2 (amended): the selection is a list, not a set: each symbol
occurs once per qualifying datum carrying it, so duplicates are kept when
two qualifying data share a symbol. -/
theorem C2_amended_multiplicity (st : AlgorithmState) (data : List UniverseDatum)
    (s : String) :
    (( UniverseSelection st data).2).count s =
      (data.filter
        (fun d => decide (d.Symbol = s ∧ d.Amount > 200000 ∧
          d.Transaction = OrderDirection.Buy))).length := by
  unfold UniverseSelection
  dsimp only
  induction data with
  | nil => rfl
  | cons d t ih =>
    by_cases hp : d.Amount > 200000 ∧ d.Transaction = OrderDirection.Buy
    · by_cases hs : d.Symbol = s
      · simp [List.filter_cons, hp, hs, List.count_cons] at ih ⊢
        omega
      · simp [List.filter_cons, hp, hs, List.count_cons] at ih ⊢
        exact ih
    · have hq : ¬ (d.Symbol = s ∧ d.Amount > 200000 ∧
          d.Transaction = OrderDirection.Buy) := fun h => hp ⟨h.2.1, h.2.2⟩
      simp [List.filter_cons, hp, hq] at ih ⊢
      exact ih

/-- Claim C3: the returned symbols form a sublist of the input symbol
sequence, i.e. they appear in the same relative order as the data they come
from (stable filter, no reordering). -/
theorem C3_order_preserved (st : AlgorithmState) (data : List UniverseDatum) :
    (( UniverseSelection st data).2).Sublist (data.map (fun d => d.Symbol)) := by
  unfold UniverseSelection
  exact List.Sublist.map (fun d => d.Symbol) (List.filter_sublist data)

/-- Claim C4: on the concrete input
`[(SYM_A, "Rep1", 250000, Buy), (SYM_B, "Rep2", 150000, Buy),
(SYM_C, "Rep3", 300000, Sell)]` the selection is exactly `[SYM_A]`. -/
theorem C4_example :
    ( UniverseSelection initState
      [⟨"SYM_A", "Rep1", 250000, OrderDirection.Buy⟩,
       ⟨"SYM_B", "Rep2", 150000, OrderDirection.Buy⟩,
       ⟨"SYM_C", "Rep3", 300000, OrderDirection.Sell⟩]).2 = ["SYM_A"] := by
  decide

/-- Claim C5: on the empty input `UniverseSelection` returns the empty
selection and leaves the state (including the log) unchanged; the embedded
function is total, so no exception is possible. -/
theorem C5_empty (st : AlgorithmState) :
    ( UniverseSelection st []).2 = [] ∧ ( UniverseSelection st []).1 = st := by
  unfold UniverseSelection
  simp

/-- Claim C6: `Initialize` sets the universe resolution to `Daily`, the
start date to 2022-02-14, the end date to 2022-02-18, the cash to 100000,
appends exactly one universe registration, and leaves the log unchanged. -/
theorem C6_initialize_config (st : AlgorithmState) :
    ( Initialize st).universeResolution = Resolution.Daily ∧
    ( Initialize st).startDate = ⟨2022, 2, 14⟩ ∧
    ( Initialize st).endDate = ⟨2022, 2, 18⟩ ∧
    ( Initialize st).cash = 100000 ∧
    ( Initialize st).universes = st.universes
      ++ [⟨"QuiverQuantCongressUniverse", "QuiverQuantCongresssUniverse",
           Resolution.Daily⟩] ∧
    ( Initialize st).log = st.log := by
  unfold Initialize
  simp

/-- Claim C7: `UniverseSelection` on a length-`n` input appends exactly the
`n` per-datum log lines (symbol, representative, amount, direction) to the
log sink, and the returned selection does not depend on the state of the
log sink. -/
theorem C7_logging (st₁ st₂ : AlgorithmState) (data : List UniverseDatum) :
    (( UniverseSelection st₁ data).1).log = st₁.log ++ data.map logLine ∧
    (data.map logLine).length = data.length ∧
    ( UniverseSelection st₁ data).2 = ( UniverseSelection st₂ data).2 := by
  refine ⟨?_, List.length_map data logLine, rfl⟩
  rw [UniverseSelection_state]

/-- Claim C8: `OnSecuritiesChanged` appends exactly one log line — the
string representation of the change set — and changes no other field of the
state. -/
theorem C8_changes_log_only (st : AlgorithmState) (changes : SecurityChangeSet) :
    ( OnSecuritiesChanged st changes).log = st.log ++ [changes.ToString] ∧
    ( OnSecuritiesChanged st changes).universeResolution = st.universeResolution ∧
    ( OnSecuritiesChanged st changes).startDate = st.startDate ∧
    ( OnSecuritiesChanged st changes).endDate = st.endDate ∧
    ( OnSecuritiesChanged st changes).cash = st.cash ∧
    ( OnSecuritiesChanged st changes).universes = st.universes := by
  unfold OnSecuritiesChanged Log
  simp

/-- Claim C9: the callbacks are stateless and deterministic: the selection
returned by `UniverseSelection` is the same from any two states (hence
across any interleaving of callback invocations), and a prior
`OnSecuritiesChanged` call never changes a later selection. -/
theorem C9_stateless (st₁ st₂ : AlgorithmState) (data : List UniverseDatum)
    (c : SecurityChangeSet) :
    ( UniverseSelection st₁ data).2 = ( UniverseSelection st₂ data).2 ∧
    ( UniverseSelection ( OnSecuritiesChanged st₁ c) data).2 =
      ( UniverseSelection st₁ data).2 := by
  exact ⟨rfl, rfl⟩

/-- Claim C10: the selection does not depend on the `Representative` field:
two inputs agreeing pointwise on symbol, amount and direction yield the
same selection. -/
theorem C10_representative_independent (data₁ data₂ : List UniverseDatum)
    (h : data₁.map observable = data₂.map observable) (st : AlgorithmState) :
    ( UniverseSelection st data₁).2 = ( UniverseSelection st data₂).2 := by
  rw [selection_eq_obs, selection_eq_obs, h]

/-- Witness for claim C10: two one-datum inputs differing only in the
representative name satisfy the hypothesis and get equal selections. -/
theorem C10_witness :
    ([⟨"A", "RepX", 250000, OrderDirection.Buy⟩] :
        List UniverseDatum).map observable =
      ([⟨"A", "RepY", 250000, OrderDirection.Buy⟩] :
        List UniverseDatum).map observable ∧
    ( UniverseSelection initState
        [⟨"A", "RepX", 250000, OrderDirection.Buy⟩]).2 =
      ( UniverseSelection initState
        [⟨"A", "RepY", 250000, OrderDirection.Buy⟩]).2 :=
  ⟨by decide, C10_representative_independent _ _ (by decide) initState⟩

end QuiverQuantCongress
